import Mathlib

/-!
Verification model of the `one-shot-mutex` crate.

The crate provides four raw lock engines:
* `RawOneShotMutex` in `src/mutex.rs` (state: `AtomicBool`) and in
  `src/unsync/mutex.rs` (state: `Cell<bool>`);
* `RawOneShotRwLock` in `src/rwlock.rs` (state: `AtomicUsize`) and in
  `src/unsync/rwlock.rs` (state: `Cell<usize>`).

We model `usize` as a 64-bit machine word: values are natural numbers below
`2 ^ 64`, and the wrapping arithmetic of `fetch_add`/`fetch_sub` (and of the
release-mode `+`/`-` used by the unsync variant) is taken modulo `2 ^ 64`.
Every operation is a pure function from the pre-state word to its result and
post-state word; an operation that can panic returns `Except`, where
`.error t` means the operation panicked with the state word equal to `t`.
-/

/-- Number of values of a 64-bit `usize`; wrapping arithmetic is modulo this. -/
def usizeSize : Nat := 2 ^ 64

/-- `usize::MAX`. -/
def usizeMax : Nat := usizeSize - 1

/-- Bitwise complement `!x` on `usize`. -/
def usizeNot (x : Nat) : Nat := usizeMax ^^^ x

/-- Wrapping `usize` addition (`fetch_add` / release-mode `+`). -/
def wrap_add (x y : Nat) : Nat := (x + y) % usizeSize

/-- Wrapping `usize` subtraction (`fetch_sub` / release-mode `-`), for `y ≤ usizeSize`. -/
def wrap_sub (x y : Nat) : Nat := (x + usizeSize - y) % usizeSize

/-- Normal shared lock counter unit (`SHARED` in `src/rwlock.rs`). -/
def SHARED : Nat := 1 <<< 2

/-- Special upgradable shared lock flag (`UPGRADABLE` in `src/rwlock.rs`). -/
def UPGRADABLE : Nat := 1 <<< 1

/-- Exclusive lock flag (`EXCLUSIVE` in `src/rwlock.rs`). -/
def EXCLUSIVE : Nat := 1

namespace sync

/-- `RawOneShotMutex::try_lock` (src/mutex.rs): `compare_exchange(false, true)`,
returning whether it succeeded, together with the post-state. -/
def mutex_try_lock (b : Bool) : Bool × Bool :=
  if b = false then (true, true) else (false, b)

/-- `RawOneShotMutex::lock` (src/mutex.rs): asserts `try_lock`;
`.error` is the state word at the panic. -/
def mutex_lock (b : Bool) : Except Bool Bool :=
  match mutex_try_lock b with
  | (true, b1) => .ok b1
  | (false, b1) => .error b1

/-- `RawOneShotMutex::unlock` (src/mutex.rs): `store(false)`. -/
def mutex_unlock (_b : Bool) : Bool := false

/-- `RawOneShotMutex::is_locked` (src/mutex.rs). -/
def mutex_is_locked (b : Bool) : Bool := b

/-- `RawOneShotMutex::unlock_fair` (src/mutex.rs): delegates to `unlock`. -/
def mutex_unlock_fair (b : Bool) : Bool := mutex_unlock b

/-- `RawOneShotMutex::bump` (src/mutex.rs): no-op. -/
def mutex_bump (b : Bool) : Bool := b

/-- `RawOneShotRwLock::is_locked_shared` (src/rwlock.rs):
`lock & !(EXCLUSIVE | UPGRADABLE) != 0`. -/
def is_locked_shared (s : Nat) : Bool :=
  s &&& usizeNot (EXCLUSIVE ||| UPGRADABLE) != 0

/-- `RawOneShotRwLock::is_locked_upgradable` (src/rwlock.rs). -/
def is_locked_upgradable (s : Nat) : Bool :=
  s &&& UPGRADABLE == UPGRADABLE

/-- `RawOneShotRwLock::acquire_shared` (src/rwlock.rs): `fetch_add(SHARED)`,
then the overflow guard: if the pre-add value exceeds `usize::MAX / 2`, the
unit is subtracted back (`fetch_sub(SHARED)`) and the call panics.
`.ok (value, s1)` is the pre-add value and the post-state; `.error t` is a
panic with state `t`. -/
def acquire_shared (s : Nat) : Except Nat (Nat × Nat) :=
  let value := s
  let s1 := wrap_add s SHARED
  if value > usizeMax / 2 then
    .error (wrap_sub s1 SHARED)
  else
    .ok (value, s1)

/-- `RawOneShotRwLock::unlock_shared` (src/rwlock.rs): `fetch_sub(SHARED)`. -/
def unlock_shared (s : Nat) : Nat := wrap_sub s SHARED

/-- `RawOneShotRwLock::try_lock_shared` (src/rwlock.rs): optimistic
`acquire_shared`, then check whether `EXCLUSIVE` was set in the pre-add value;
if it was, roll back via `unlock_shared` and fail. -/
def try_lock_shared (s : Nat) : Except Nat (Bool × Nat) :=
  match acquire_shared s with
  | .error t => .error t
  | .ok (value, s1) =>
    let acquired := value &&& EXCLUSIVE != EXCLUSIVE
    if acquired then .ok (true, s1) else .ok (false, unlock_shared s1)

/-- `RawOneShotRwLock::lock_shared` (src/rwlock.rs): asserts `try_lock_shared`. -/
def lock_shared (s : Nat) : Except Nat Nat :=
  match try_lock_shared s with
  | .error t => .error t
  | .ok (true, s1) => .ok s1
  | .ok (false, s1) => .error s1

/-- `RawOneShotRwLock::try_lock_exclusive` (src/rwlock.rs):
`compare_exchange(0, EXCLUSIVE)`. -/
def try_lock_exclusive (s : Nat) : Bool × Nat :=
  if s = 0 then (true, EXCLUSIVE) else (false, s)

/-- `RawOneShotRwLock::lock_exclusive` (src/rwlock.rs): asserts `try_lock_exclusive`. -/
def lock_exclusive (s : Nat) : Except Nat Nat :=
  match try_lock_exclusive s with
  | (true, s1) => .ok s1
  | (false, s1) => .error s1

/-- `RawOneShotRwLock::unlock_exclusive` (src/rwlock.rs): `fetch_and(!EXCLUSIVE)`. -/
def unlock_exclusive (s : Nat) : Nat := s &&& usizeNot EXCLUSIVE

/-- `RawOneShotRwLock::is_locked` (src/rwlock.rs). -/
def is_locked (s : Nat) : Bool := s != 0

/-- `RawOneShotRwLock::is_locked_exclusive` (src/rwlock.rs). -/
def is_locked_exclusive (s : Nat) : Bool := s &&& EXCLUSIVE == EXCLUSIVE

/-- `RawOneShotRwLock::lock_shared_recursive` (src/rwlock.rs): delegates to `lock_shared`. -/
def lock_shared_recursive (s : Nat) : Except Nat Nat := lock_shared s

/-- `RawOneShotRwLock::try_lock_shared_recursive` (src/rwlock.rs): delegates to
`try_lock_shared`. -/
def try_lock_shared_recursive (s : Nat) : Except Nat (Bool × Nat) := try_lock_shared s

/-- `RawOneShotRwLock::downgrade` (src/rwlock.rs): `acquire_shared` (reserving the
shared guard for the caller), then `unlock_exclusive`. -/
def downgrade (s : Nat) : Except Nat Nat :=
  match acquire_shared s with
  | .error t => .error t
  | .ok (_, s1) => .ok (unlock_exclusive s1)

/-- `RawOneShotRwLock::unlock_upgradable` (src/rwlock.rs): `fetch_and(!UPGRADABLE)`. -/
def unlock_upgradable (s : Nat) : Nat := s &&& usizeNot UPGRADABLE

/-- `RawOneShotRwLock::try_lock_upgradable` (src/rwlock.rs): optimistic
`fetch_or(UPGRADABLE)`, then check the pre-or value; on failure, roll back via
`unlock_upgradable` only when the pre-or value did not already have
`UPGRADABLE` set. -/
def try_lock_upgradable (s : Nat) : Bool × Nat :=
  let value := s
  let s1 := s ||| UPGRADABLE
  let acquired := value &&& (UPGRADABLE ||| EXCLUSIVE) == 0
  if !acquired && value &&& UPGRADABLE == 0 then
    (acquired, unlock_upgradable s1)
  else
    (acquired, s1)

/-- `RawOneShotRwLock::lock_upgradable` (src/rwlock.rs): asserts `try_lock_upgradable`. -/
def lock_upgradable (s : Nat) : Except Nat Nat :=
  match try_lock_upgradable s with
  | (true, s1) => .ok s1
  | (false, s1) => .error s1

/-- `RawOneShotRwLock::try_upgrade` (src/rwlock.rs):
`compare_exchange(UPGRADABLE, EXCLUSIVE)`. -/
def try_upgrade (s : Nat) : Bool × Nat :=
  if s = UPGRADABLE then (true, EXCLUSIVE) else (false, s)

/-- `RawOneShotRwLock::upgrade` (src/rwlock.rs): asserts `try_upgrade`. -/
def upgrade (s : Nat) : Except Nat Nat :=
  match try_upgrade s with
  | (true, s1) => .ok s1
  | (false, s1) => .error s1

/-- `RawOneShotRwLock::downgrade_upgradable` (src/rwlock.rs): `acquire_shared`,
then `unlock_upgradable`. -/
def downgrade_upgradable (s : Nat) : Except Nat Nat :=
  match acquire_shared s with
  | .error t => .error t
  | .ok (_, s1) => .ok (unlock_upgradable s1)

/-- `RawOneShotRwLock::downgrade_to_upgradable` (src/rwlock.rs):
`fetch_xor(UPGRADABLE | EXCLUSIVE)`. -/
def downgrade_to_upgradable (s : Nat) : Nat := s ^^^ (UPGRADABLE ||| EXCLUSIVE)

end sync

namespace unsync

/-- `RawOneShotRwLock::over_state` (src/unsync/rwlock.rs): returns the old cell
value, the cell becomes `f old`. -/
def over_state (s : Nat) (f : Nat → Nat) : Nat × Nat := (s, f s)

/-- `RawOneShotMutex::try_lock` (src/unsync/mutex.rs): `lock.replace(true)`,
returning the negation of the old value, post-state always `true`. -/
def mutex_try_lock (b : Bool) : Bool × Bool :=
  let was_locked := b
  (!was_locked, true)

/-- `RawOneShotMutex::lock` (src/unsync/mutex.rs): asserts `try_lock`. -/
def mutex_lock (b : Bool) : Except Bool Bool :=
  match mutex_try_lock b with
  | (true, b1) => .ok b1
  | (false, b1) => .error b1

/-- `RawOneShotMutex::unlock` (src/unsync/mutex.rs): `lock.set(false)`. -/
def mutex_unlock (_b : Bool) : Bool := false

/-- `RawOneShotMutex::is_locked` (src/unsync/mutex.rs). -/
def mutex_is_locked (b : Bool) : Bool := b

/-- `RawOneShotMutex::unlock_fair` (src/unsync/mutex.rs): delegates to `unlock`. -/
def mutex_unlock_fair (b : Bool) : Bool := mutex_unlock b

/-- `RawOneShotMutex::bump` (src/unsync/mutex.rs): no-op. -/
def mutex_bump (b : Bool) : Bool := b

/-- `RawOneShotRwLock::is_locked_shared` (src/unsync/rwlock.rs). -/
def is_locked_shared (s : Nat) : Bool :=
  s &&& usizeNot (EXCLUSIVE ||| UPGRADABLE) != 0

/-- `RawOneShotRwLock::is_locked_upgradable` (src/unsync/rwlock.rs). -/
def is_locked_upgradable (s : Nat) : Bool :=
  s &&& UPGRADABLE == UPGRADABLE

/-- `RawOneShotRwLock::acquire_shared` (src/unsync/rwlock.rs):
`over_state(|state| state + SHARED)` and the overflow guard; arithmetic wraps
(release-mode semantics). -/
def acquire_shared (s : Nat) : Except Nat (Nat × Nat) :=
  let (value, s1) := over_state s (fun st => wrap_add st SHARED)
  if value > usizeMax / 2 then
    .error (over_state s1 (fun st => wrap_sub st SHARED)).2
  else
    .ok (value, s1)

/-- `RawOneShotRwLock::unlock_shared` (src/unsync/rwlock.rs):
`over_state(|state| state - SHARED)`. -/
def unlock_shared (s : Nat) : Nat := (over_state s (fun st => wrap_sub st SHARED)).2

/-- `RawOneShotRwLock::try_lock_shared` (src/unsync/rwlock.rs). -/
def try_lock_shared (s : Nat) : Except Nat (Bool × Nat) :=
  match acquire_shared s with
  | .error t => .error t
  | .ok (value, s1) =>
    let acquired := value &&& EXCLUSIVE != EXCLUSIVE
    if acquired then .ok (true, s1) else .ok (false, unlock_shared s1)

/-- `RawOneShotRwLock::lock_shared` (src/unsync/rwlock.rs): asserts `try_lock_shared`. -/
def lock_shared (s : Nat) : Except Nat Nat :=
  match try_lock_shared s with
  | .error t => .error t
  | .ok (true, s1) => .ok s1
  | .ok (false, s1) => .error s1

/-- `RawOneShotRwLock::try_lock_exclusive` (src/unsync/rwlock.rs): read the cell;
if it is `0`, set it to `EXCLUSIVE`. -/
def try_lock_exclusive (s : Nat) : Bool × Nat :=
  let ok := s == 0
  if ok then (ok, EXCLUSIVE) else (ok, s)

/-- `RawOneShotRwLock::lock_exclusive` (src/unsync/rwlock.rs): asserts
`try_lock_exclusive`. -/
def lock_exclusive (s : Nat) : Except Nat Nat :=
  match try_lock_exclusive s with
  | (true, s1) => .ok s1
  | (false, s1) => .error s1

/-- `RawOneShotRwLock::unlock_exclusive` (src/unsync/rwlock.rs):
`over_state(|state| state & !EXCLUSIVE)`. -/
def unlock_exclusive (s : Nat) : Nat := (over_state s (fun st => st &&& usizeNot EXCLUSIVE)).2

/-- `RawOneShotRwLock::is_locked` (src/unsync/rwlock.rs). -/
def is_locked (s : Nat) : Bool := s != 0

/-- `RawOneShotRwLock::is_locked_exclusive` (src/unsync/rwlock.rs). -/
def is_locked_exclusive (s : Nat) : Bool := s &&& EXCLUSIVE == EXCLUSIVE

/-- `RawOneShotRwLock::lock_shared_recursive` (src/unsync/rwlock.rs). -/
def lock_shared_recursive (s : Nat) : Except Nat Nat := lock_shared s

/-- `RawOneShotRwLock::try_lock_shared_recursive` (src/unsync/rwlock.rs). -/
def try_lock_shared_recursive (s : Nat) : Except Nat (Bool × Nat) := try_lock_shared s

/-- `RawOneShotRwLock::downgrade` (src/unsync/rwlock.rs). -/
def downgrade (s : Nat) : Except Nat Nat :=
  match acquire_shared s with
  | .error t => .error t
  | .ok (_, s1) => .ok (unlock_exclusive s1)

/-- `RawOneShotRwLock::unlock_upgradable` (src/unsync/rwlock.rs):
`over_state(|state| state & !UPGRADABLE)`. -/
def unlock_upgradable (s : Nat) : Nat := (over_state s (fun st => st &&& usizeNot UPGRADABLE)).2

/-- `RawOneShotRwLock::try_lock_upgradable` (src/unsync/rwlock.rs):
`over_state(|state| state | UPGRADABLE)` then the conditional rollback. -/
def try_lock_upgradable (s : Nat) : Bool × Nat :=
  let (value, s1) := over_state s (fun st => st ||| UPGRADABLE)
  let acquired := value &&& (UPGRADABLE ||| EXCLUSIVE) == 0
  if !acquired && value &&& UPGRADABLE == 0 then
    (acquired, unlock_upgradable s1)
  else
    (acquired, s1)

/-- `RawOneShotRwLock::lock_upgradable` (src/unsync/rwlock.rs): asserts
`try_lock_upgradable`. -/
def lock_upgradable (s : Nat) : Except Nat Nat :=
  match try_lock_upgradable s with
  | (true, s1) => .ok s1
  | (false, s1) => .error s1

/-- `RawOneShotRwLock::try_upgrade` (src/unsync/rwlock.rs): read the cell; if it
is exactly `UPGRADABLE`, set it to `EXCLUSIVE`. -/
def try_upgrade (s : Nat) : Bool × Nat :=
  let ok := s == UPGRADABLE
  if ok then (ok, EXCLUSIVE) else (ok, s)

/-- `RawOneShotRwLock::upgrade` (src/unsync/rwlock.rs): asserts `try_upgrade`. -/
def upgrade (s : Nat) : Except Nat Nat :=
  match try_upgrade s with
  | (true, s1) => .ok s1
  | (false, s1) => .error s1

/-- `RawOneShotRwLock::downgrade_upgradable` (src/unsync/rwlock.rs). -/
def downgrade_upgradable (s : Nat) : Except Nat Nat :=
  match acquire_shared s with
  | .error t => .error t
  | .ok (_, s1) => .ok (unlock_upgradable s1)

/-- `RawOneShotRwLock::downgrade_to_upgradable` (src/unsync/rwlock.rs):
`over_state(|state| state ^ (UPGRADABLE | EXCLUSIVE))`. -/
def downgrade_to_upgradable (s : Nat) : Nat :=
  (over_state s (fun st => st ^^^ (UPGRADABLE ||| EXCLUSIVE))).2

end unsync

namespace sync

/-- The state words of the sync `RawOneShotRwLock` reachable from the
zero-initialized state by completed (non-panicking) operations, where each
unsafe release/downgrade operation is invoked only under its holder
precondition (the holder of the corresponding mode exists in the state). -/
inductive Reachable : Nat → Prop where
  | init : Reachable 0
  | step_try_lock_shared {s t : Nat} {b : Bool} : Reachable s →
      try_lock_shared s = .ok (b, t) → Reachable t
  | step_unlock_shared {s : Nat} : Reachable s →
      is_locked_shared s = true → Reachable (unlock_shared s)
  | step_try_lock_exclusive {s : Nat} : Reachable s →
      Reachable (try_lock_exclusive s).2
  | step_unlock_exclusive {s : Nat} : Reachable s →
      is_locked_exclusive s = true → Reachable (unlock_exclusive s)
  | step_try_lock_upgradable {s : Nat} : Reachable s →
      Reachable (try_lock_upgradable s).2
  | step_unlock_upgradable {s : Nat} : Reachable s →
      is_locked_upgradable s = true → Reachable (unlock_upgradable s)
  | step_try_upgrade {s : Nat} : Reachable s →
      is_locked_upgradable s = true → Reachable (try_upgrade s).2
  | step_downgrade {s t : Nat} : Reachable s →
      is_locked_exclusive s = true → downgrade s = .ok t → Reachable t
  | step_downgrade_upgradable {s t : Nat} : Reachable s →
      is_locked_upgradable s = true → downgrade_upgradable s = .ok t → Reachable t
  | step_downgrade_to_upgradable {s : Nat} : Reachable s →
      is_locked_exclusive s = true → Reachable (downgrade_to_upgradable s)

end sync

namespace unsync

/-- The state words of the unsync `RawOneShotRwLock` reachable from the
zero-initialized state by completed (non-panicking) operations, where each
unsafe release/downgrade operation is invoked only under its holder
precondition. -/
inductive Reachable : Nat → Prop where
  | init : Reachable 0
  | step_try_lock_shared {s t : Nat} {b : Bool} : Reachable s →
      try_lock_shared s = .ok (b, t) → Reachable t
  | step_unlock_shared {s : Nat} : Reachable s →
      is_locked_shared s = true → Reachable (unlock_shared s)
  | step_try_lock_exclusive {s : Nat} : Reachable s →
      Reachable (try_lock_exclusive s).2
  | step_unlock_exclusive {s : Nat} : Reachable s →
      is_locked_exclusive s = true → Reachable (unlock_exclusive s)
  | step_try_lock_upgradable {s : Nat} : Reachable s →
      Reachable (try_lock_upgradable s).2
  | step_unlock_upgradable {s : Nat} : Reachable s →
      is_locked_upgradable s = true → Reachable (unlock_upgradable s)
  | step_try_upgrade {s : Nat} : Reachable s →
      is_locked_upgradable s = true → Reachable (try_upgrade s).2
  | step_downgrade {s t : Nat} : Reachable s →
      is_locked_exclusive s = true → downgrade s = .ok t → Reachable t
  | step_downgrade_upgradable {s t : Nat} : Reachable s →
      is_locked_upgradable s = true → downgrade_upgradable s = .ok t → Reachable t
  | step_downgrade_to_upgradable {s : Nat} : Reachable s →
      is_locked_exclusive s = true → Reachable (downgrade_to_upgradable s)

end unsync

/-- The state-word invariant of the readers-writer lock: within the 64-bit
word, if the EXCLUSIVE bit (bit 0) is set then the shared-reader count
(bits at positions two and above) is zero and the UPGRADABLE bit (bit 1)
is clear; the UPGRADABLE bit value is at most one (it encodes at most one
upgradable holder). -/
def RwInvariant (s : Nat) : Prop :=
  s < usizeSize ∧ (s % 2 = 1 → s / 4 = 0) ∧ ¬(s % 2 = 1 ∧ s / 2 % 2 = 1) ∧ s / 2 % 2 ≤ 1

/-! ### Arithmetic characterization of the bit-level primitives -/

lemma bool_eq_of_iff {a b : Bool} (h : a = true ↔ b = true) : a = b := by
  cases a <;> cases b <;> simp_all

lemma div_four_pow (x k : Nat) : x / 2 ^ (k + 2) = x / 4 / 2 ^ k := by
  rw [Nat.div_div_eq_div_mul]
  congr 1
  rw [pow_add]
  ring

lemma testBit_add_two (x k : Nat) : x.testBit (k + 2) = decide (x / 4 / 2 ^ k % 2 = 1) := by
  rw [Nat.testBit_to_div_mod, div_four_pow]

lemma testBit_high_false {x : Nat} (k : Nat) (hx : x < usizeSize) (hk : 62 ≤ k) :
    x / 4 / 2 ^ k % 2 = 0 := by
  have h1 : x / 4 < 2 ^ 62 := by
    have : x < 2 ^ 64 := hx
    omega
  have h2 : x / 4 / 2 ^ k = 0 :=
    Nat.div_eq_of_lt (lt_of_lt_of_le h1 (Nat.pow_le_pow_right (by norm_num) hk))
  rw [h2]

lemma and_three (s : Nat) : s &&& 3 = s % 4 := by
  have h := Nat.and_pow_two_sub_one_eq_mod s 2
  norm_num at h
  exact h

lemma and_two (s : Nat) : s &&& 2 = 2 * (s / 2 % 2) := by
  apply Nat.eq_of_testBit_eq
  intro i
  rw [Nat.testBit_and]
  rcases i with _ | _ | k
  · rw [Nat.testBit_zero, Nat.testBit_zero, Nat.testBit_zero]
    apply bool_eq_of_iff
    simp only [Bool.and_eq_true, Bool.or_eq_true, decide_eq_true_eq, true_or, or_true,
      true_and, and_true, false_or, or_false, false_and, and_false, iff_true, true_iff,
      iff_false, false_iff]
    try omega
  · rw [Nat.testBit_to_div_mod, Nat.testBit_to_div_mod, Nat.testBit_to_div_mod]
    apply bool_eq_of_iff
    simp only [Bool.and_eq_true, Bool.or_eq_true, decide_eq_true_eq, true_or, or_true,
      true_and, and_true, false_or, or_false, false_and, and_false, iff_true, true_iff,
      iff_false, false_iff]
    norm_num
  · rw [testBit_add_two, testBit_add_two, testBit_add_two]
    apply bool_eq_of_iff
    simp only [Bool.and_eq_true, Bool.or_eq_true, decide_eq_true_eq, true_or, or_true,
      true_and, and_true, false_or, or_false, false_and, and_false, iff_true, true_iff,
      iff_false, false_iff]
    have h2 : (2 : Nat) / 4 = 0 := by norm_num
    rw [h2]
    have h3 : 2 * (s / 2 % 2) / 4 = 0 := by omega
    rw [h3]
    simp
  
lemma testBit_not_one (i : Nat) : (usizeNot EXCLUSIVE).testBit i = decide (1 ≤ i ∧ i < 64) := by
  rcases i with _ | k
  · decide
  · have h2 : usizeNot EXCLUSIVE / 2 = 2 ^ 63 - 1 := by decide
    rw [Nat.testBit_add_one, h2, Nat.testBit_two_pow_sub_one, decide_eq_decide]
    omega

lemma testBit_not_two (i : Nat) :
    (usizeNot UPGRADABLE).testBit i = decide (i = 0 ∨ (2 ≤ i ∧ i < 64)) := by
  rcases i with _ | _ | k
  · decide
  · decide
  · have h4 : usizeNot UPGRADABLE / 4 = 2 ^ 62 - 1 := by decide
    have h := Nat.testBit_two_pow_sub_one 62 k
    rw [Nat.testBit_to_div_mod] at h
    rw [testBit_add_two, h4, h, decide_eq_decide]
    omega

lemma testBit_not_three (i : Nat) :
    (usizeNot (EXCLUSIVE ||| UPGRADABLE)).testBit i = decide (2 ≤ i ∧ i < 64) := by
  rcases i with _ | _ | k
  · decide
  · decide
  · have h4 : usizeNot (EXCLUSIVE ||| UPGRADABLE) / 4 = 2 ^ 62 - 1 := by decide
    have h := Nat.testBit_two_pow_sub_one 62 k
    rw [Nat.testBit_to_div_mod] at h
    rw [testBit_add_two, h4, h, decide_eq_decide]
    omega


lemma testBit_one (x : Nat) : x.testBit 1 = decide (x / 2 % 2 = 1) := by
  rw [Nat.testBit_to_div_mod]

lemma and_not_one (s : Nat) (hs : s < usizeSize) : s &&& usizeNot EXCLUSIVE = 2 * (s / 2) := by
  apply Nat.eq_of_testBit_eq
  intro i
  rw [Nat.testBit_and, testBit_not_one]
  rcases i with _ | _ | k
  · rw [Nat.testBit_zero, Nat.testBit_zero]
    apply bool_eq_of_iff
    simp only [Bool.and_eq_true, Bool.or_eq_true, decide_eq_true_eq, true_or, or_true,
      true_and, and_true, false_or, or_false, false_and, and_false, iff_true, true_iff,
      iff_false, false_iff]
    try omega
  · rw [testBit_one, testBit_one]
    apply bool_eq_of_iff
    simp only [Bool.and_eq_true, Bool.or_eq_true, decide_eq_true_eq, true_or, or_true,
      true_and, and_true, false_or, or_false, false_and, and_false, iff_true, true_iff,
      iff_false, false_iff]
    try omega
  · rw [testBit_add_two, testBit_add_two]
    apply bool_eq_of_iff
    simp only [Bool.and_eq_true, Bool.or_eq_true, decide_eq_true_eq, true_or, or_true,
      true_and, and_true, false_or, or_false, false_and, and_false, iff_true, true_iff,
      iff_false, false_iff]
    have h1 : 2 * (s / 2) / 4 = s / 4 := by omega
    rw [h1]
    by_cases hk : 62 ≤ k
    · have h0 := testBit_high_false k hs hk
      omega
    · omega

lemma and_not_two (s : Nat) (hs : s < usizeSize) :
    s &&& usizeNot UPGRADABLE = s % 2 + 4 * (s / 4) := by
  apply Nat.eq_of_testBit_eq
  intro i
  rw [Nat.testBit_and, testBit_not_two]
  rcases i with _ | _ | k
  · rw [Nat.testBit_zero, Nat.testBit_zero]
    apply bool_eq_of_iff
    simp only [Bool.and_eq_true, Bool.or_eq_true, decide_eq_true_eq, true_or, or_true,
      true_and, and_true, false_or, or_false, false_and, and_false, iff_true, true_iff,
      iff_false, false_iff]
    try omega
  · rw [testBit_one, testBit_one]
    apply bool_eq_of_iff
    simp only [Bool.and_eq_true, Bool.or_eq_true, decide_eq_true_eq, true_or, or_true,
      true_and, and_true, false_or, or_false, false_and, and_false, iff_true, true_iff,
      iff_false, false_iff]
    try omega
  · rw [testBit_add_two, testBit_add_two]
    apply bool_eq_of_iff
    simp only [Bool.and_eq_true, Bool.or_eq_true, decide_eq_true_eq, true_or, or_true,
      true_and, and_true, false_or, or_false, false_and, and_false, iff_true, true_iff,
      iff_false, false_iff]
    have h1 : (s % 2 + 4 * (s / 4)) / 4 = s / 4 := by omega
    rw [h1]
    by_cases hk : 62 ≤ k
    · have h0 := testBit_high_false k hs hk
      omega
    · omega

lemma and_not_three (s : Nat) (hs : s < usizeSize) :
    s &&& usizeNot (EXCLUSIVE ||| UPGRADABLE) = 4 * (s / 4) := by
  apply Nat.eq_of_testBit_eq
  intro i
  rw [Nat.testBit_and, testBit_not_three]
  rcases i with _ | _ | k
  · rw [Nat.testBit_zero, Nat.testBit_zero]
    apply bool_eq_of_iff
    simp only [Bool.and_eq_true, Bool.or_eq_true, decide_eq_true_eq, true_or, or_true,
      true_and, and_true, false_or, or_false, false_and, and_false, iff_true, true_iff,
      iff_false, false_iff]
    try omega
  · rw [testBit_one, testBit_one]
    apply bool_eq_of_iff
    simp only [Bool.and_eq_true, Bool.or_eq_true, decide_eq_true_eq, true_or, or_true,
      true_and, and_true, false_or, or_false, false_and, and_false, iff_true, true_iff,
      iff_false, false_iff]
    try omega
  · rw [testBit_add_two, testBit_add_two]
    apply bool_eq_of_iff
    simp only [Bool.and_eq_true, Bool.or_eq_true, decide_eq_true_eq, true_or, or_true,
      true_and, and_true, false_or, or_false, false_and, and_false, iff_true, true_iff,
      iff_false, false_iff]
    have h1 : 4 * (s / 4) / 4 = s / 4 := by omega
    rw [h1]
    by_cases hk : 62 ≤ k
    · have h0 := testBit_high_false k hs hk
      omega
    · omega

lemma or_two (s : Nat) : s ||| 2 = s % 2 + 2 + 4 * (s / 4) := by
  apply Nat.eq_of_testBit_eq
  intro i
  rw [Nat.testBit_or]
  rcases i with _ | _ | k
  · rw [Nat.testBit_zero, Nat.testBit_zero, Nat.testBit_zero]
    apply bool_eq_of_iff
    simp only [Bool.and_eq_true, Bool.or_eq_true, decide_eq_true_eq, true_or, or_true,
      true_and, and_true, false_or, or_false, false_and, and_false, iff_true, true_iff,
      iff_false, false_iff]
    try omega
  · rw [testBit_one, testBit_one, testBit_one]
    apply bool_eq_of_iff
    simp only [Bool.and_eq_true, Bool.or_eq_true, decide_eq_true_eq, true_or, or_true,
      true_and, and_true, false_or, or_false, false_and, and_false, iff_true, true_iff,
      iff_false, false_iff]
    try omega
  · rw [testBit_add_two, testBit_add_two, testBit_add_two]
    apply bool_eq_of_iff
    simp only [Bool.and_eq_true, Bool.or_eq_true, decide_eq_true_eq, true_or, or_true,
      true_and, and_true, false_or, or_false, false_and, and_false, iff_true, true_iff,
      iff_false, false_iff]
    have h1 : (s % 2 + 2 + 4 * (s / 4)) / 4 = s / 4 := by omega
    have h2 : (2 : Nat) / 4 = 0 := by norm_num
    rw [h1, h2]
    simp only [Nat.zero_div, Nat.zero_mod]
    omega

/-! ### Numeric values of the constants -/

lemma SHARED_val : SHARED = 4 := by decide

lemma UPGRADABLE_val : UPGRADABLE = 2 := by decide

lemma EXCLUSIVE_val : EXCLUSIVE = 1 := by decide

lemma usizeSize_val : usizeSize = 2 ^ 64 := rfl

lemma half_max : usizeMax / 2 = 2 ^ 63 - 1 := by decide

/-! ### Behaviour of each sync operation in plain arithmetic -/

lemma sync_acquire_shared_ok {s : Nat} (h : s ≤ usizeMax / 2) :
    sync.acquire_shared s = .ok (s, s + 4) := by
  rw [half_max] at h
  simp only [sync.acquire_shared, wrap_add, SHARED_val, usizeSize_val, half_max]
  rw [if_neg (by omega)]
  have h4 : (s + 4) % 2 ^ 64 = s + 4 := Nat.mod_eq_of_lt (by omega)
  rw [h4]

lemma sync_acquire_shared_panic {s : Nat} (h1 : usizeMax / 2 < s) (h2 : s < usizeSize) :
    sync.acquire_shared s = .error s := by
  rw [half_max] at h1
  rw [usizeSize_val] at h2
  simp only [sync.acquire_shared, wrap_add, wrap_sub, SHARED_val, usizeSize_val, half_max]
  rw [if_pos (by omega)]
  have h4 : ((s + 4) % 2 ^ 64 + 2 ^ 64 - 4) % 2 ^ 64 = s := by omega
  rw [h4]

lemma sync_unlock_shared_eq {s : Nat} (h4 : 4 ≤ s) (h : s < usizeSize) :
    sync.unlock_shared s = s - 4 := by
  rw [usizeSize_val] at h
  simp only [sync.unlock_shared, wrap_sub, SHARED_val, usizeSize_val]
  omega

lemma sync_try_lock_shared_ok {s : Nat} (h : s ≤ usizeMax / 2) (he : s % 2 = 0) :
    sync.try_lock_shared s = .ok (true, s + 4) := by
  simp only [sync.try_lock_shared, sync_acquire_shared_ok h, EXCLUSIVE_val,
    Nat.and_one_is_mod, he]
  rfl

lemma sync_try_lock_shared_fail {s : Nat} (h : s ≤ usizeMax / 2) (he : s % 2 = 1) :
    sync.try_lock_shared s = .ok (false, s) := by
  have hlt : s + 4 < usizeSize := by
    rw [half_max] at h
    rw [usizeSize_val]
    omega
  simp only [sync.try_lock_shared, sync_acquire_shared_ok h, EXCLUSIVE_val,
    Nat.and_one_is_mod, he]
  have hu : sync.unlock_shared (s + 4) = s := by
    rw [sync_unlock_shared_eq (by omega) hlt]
    omega
  rw [hu]
  rfl

lemma sync_try_lock_shared_panic {s : Nat} (h1 : usizeMax / 2 < s) (h2 : s < usizeSize) :
    sync.try_lock_shared s = .error s := by
  simp only [sync.try_lock_shared, sync_acquire_shared_panic h1 h2]

lemma sync_unlock_exclusive_eq {s : Nat} (h : s < usizeSize) :
    sync.unlock_exclusive s = 2 * (s / 2) := by
  simp only [sync.unlock_exclusive]
  exact and_not_one s h

lemma sync_unlock_upgradable_eq {s : Nat} (h : s < usizeSize) :
    sync.unlock_upgradable s = s % 2 + 4 * (s / 4) := by
  simp only [sync.unlock_upgradable]
  exact and_not_two s h

lemma sync_is_locked_shared_iff {s : Nat} (h : s < usizeSize) :
    sync.is_locked_shared s = true ↔ 4 ≤ s := by
  simp only [sync.is_locked_shared, and_not_three s h, ne_eq, bne_iff_ne]
  omega

lemma sync_is_locked_upgradable_iff (s : Nat) :
    sync.is_locked_upgradable s = true ↔ s / 2 % 2 = 1 := by
  simp only [sync.is_locked_upgradable, UPGRADABLE_val, and_two, beq_iff_eq]
  omega

lemma sync_is_locked_exclusive_iff (s : Nat) :
    sync.is_locked_exclusive s = true ↔ s % 2 = 1 := by
  simp only [sync.is_locked_exclusive, EXCLUSIVE_val, Nat.and_one_is_mod, beq_iff_eq]

lemma sync_try_lock_upgradable_ok {s : Nat} (h : s % 4 = 0) :
    sync.try_lock_upgradable s = (true, s + 2) := by
  simp only [sync.try_lock_upgradable, UPGRADABLE_val, EXCLUSIVE_val]
  have h3 : (2 : Nat) ||| 1 = 3 := by decide
  rw [h3, and_three, h]
  simp only [beq_self_eq_true, Bool.not_true, Bool.false_and, if_neg (by simp : ¬false = true)]
  rw [or_two]
  have : s % 2 + 2 + 4 * (s / 4) = s + 2 := by omega
  rw [this]

lemma sync_try_lock_upgradable_fail_excl {s : Nat} (hs : s < usizeSize) (he : s % 2 = 1)
    (hu : s / 2 % 2 = 0) : sync.try_lock_upgradable s = (false, s) := by
  simp only [sync.try_lock_upgradable, UPGRADABLE_val, EXCLUSIVE_val]
  have h3 : (2 : Nat) ||| 1 = 3 := by decide
  rw [h3, and_three, and_two, hu]
  have h4 : s % 4 = 1 := by omega
  rw [h4]
  have hlt : s + 2 < usizeSize := by
    rw [usizeSize_val] at hs ⊢
    omega
  rw [or_two]
  have h5 : s % 2 + 2 + 4 * (s / 4) = s + 2 := by omega
  rw [h5]
  have h6 : sync.unlock_upgradable (s + 2) = s := by
    rw [sync_unlock_upgradable_eq hlt]
    omega
  simp only [h6]
  rfl

lemma sync_try_lock_upgradable_fail_upg {s : Nat}
    (hu : s / 2 % 2 = 1) : sync.try_lock_upgradable s = (false, s) := by
  simp only [sync.try_lock_upgradable, UPGRADABLE_val, EXCLUSIVE_val]
  have h3 : (2 : Nat) ||| 1 = 3 := by decide
  rw [h3, and_three, and_two, hu]
  have h4 : s % 4 ≠ 0 := by omega
  rw [or_two]
  have h5 : s % 2 + 2 + 4 * (s / 4) = s := by omega
  rw [h5]
  simp [h4]

lemma sync_downgrade_eq {s : Nat} (h : s ≤ usizeMax / 2) :
    sync.downgrade s = .ok (2 * ((s + 4) / 2)) := by
  have hlt : s + 4 < usizeSize := by
    rw [half_max] at h
    rw [usizeSize_val]
    omega
  simp only [sync.downgrade, sync_acquire_shared_ok h]
  rw [sync_unlock_exclusive_eq hlt]

lemma sync_downgrade_panic {s : Nat} (h1 : usizeMax / 2 < s) (h2 : s < usizeSize) :
    sync.downgrade s = .error s := by
  simp only [sync.downgrade, sync_acquire_shared_panic h1 h2]

lemma sync_downgrade_upgradable_eq {s : Nat} (h : s ≤ usizeMax / 2) :
    sync.downgrade_upgradable s = .ok ((s + 4) % 2 + 4 * ((s + 4) / 4)) := by
  have hlt : s + 4 < usizeSize := by
    rw [half_max] at h
    rw [usizeSize_val]
    omega
  simp only [sync.downgrade_upgradable, sync_acquire_shared_ok h]
  rw [sync_unlock_upgradable_eq hlt]

lemma sync_downgrade_upgradable_panic {s : Nat} (h1 : usizeMax / 2 < s) (h2 : s < usizeSize) :
    sync.downgrade_upgradable s = .error s := by
  simp only [sync.downgrade_upgradable, sync_acquire_shared_panic h1 h2]

/-! ### The unsync implementation computes the same function as the sync one -/

lemma mutex_try_lock_eq (b : Bool) : unsync.mutex_try_lock b = sync.mutex_try_lock b := by
  cases b <;> rfl

lemma mutex_lock_eq (b : Bool) : unsync.mutex_lock b = sync.mutex_lock b := by
  cases b <;> rfl

lemma mutex_unlock_eq (b : Bool) : unsync.mutex_unlock b = sync.mutex_unlock b := rfl

lemma mutex_is_locked_eq (b : Bool) : unsync.mutex_is_locked b = sync.mutex_is_locked b := rfl

lemma mutex_unlock_fair_eq (b : Bool) :
    unsync.mutex_unlock_fair b = sync.mutex_unlock_fair b := rfl

lemma mutex_bump_eq (b : Bool) : unsync.mutex_bump b = sync.mutex_bump b := rfl

lemma is_locked_shared_eq (s : Nat) : unsync.is_locked_shared s = sync.is_locked_shared s := rfl

lemma is_locked_upgradable_eq (s : Nat) :
    unsync.is_locked_upgradable s = sync.is_locked_upgradable s := rfl

lemma acquire_shared_eq (s : Nat) : unsync.acquire_shared s = sync.acquire_shared s := rfl

lemma unlock_shared_eq (s : Nat) : unsync.unlock_shared s = sync.unlock_shared s := rfl

lemma try_lock_shared_eq (s : Nat) : unsync.try_lock_shared s = sync.try_lock_shared s := rfl

lemma lock_shared_eq (s : Nat) : unsync.lock_shared s = sync.lock_shared s := rfl

lemma try_lock_exclusive_eq (s : Nat) :
    unsync.try_lock_exclusive s = sync.try_lock_exclusive s := by
  by_cases h : s = 0 <;> simp [unsync.try_lock_exclusive, sync.try_lock_exclusive, h]

lemma lock_exclusive_eq (s : Nat) : unsync.lock_exclusive s = sync.lock_exclusive s := by
  rw [unsync.lock_exclusive, sync.lock_exclusive, try_lock_exclusive_eq]

lemma unlock_exclusive_eq (s : Nat) : unsync.unlock_exclusive s = sync.unlock_exclusive s := rfl

lemma is_locked_eq (s : Nat) : unsync.is_locked s = sync.is_locked s := rfl

lemma is_locked_exclusive_eq (s : Nat) :
    unsync.is_locked_exclusive s = sync.is_locked_exclusive s := rfl

lemma lock_shared_recursive_eq (s : Nat) :
    unsync.lock_shared_recursive s = sync.lock_shared_recursive s := rfl

lemma try_lock_shared_recursive_eq (s : Nat) :
    unsync.try_lock_shared_recursive s = sync.try_lock_shared_recursive s := rfl

lemma downgrade_eq (s : Nat) : unsync.downgrade s = sync.downgrade s := rfl

lemma unlock_upgradable_eq (s : Nat) :
    unsync.unlock_upgradable s = sync.unlock_upgradable s := rfl

lemma try_lock_upgradable_eq (s : Nat) :
    unsync.try_lock_upgradable s = sync.try_lock_upgradable s := rfl

lemma lock_upgradable_eq (s : Nat) : unsync.lock_upgradable s = sync.lock_upgradable s := by
  rw [unsync.lock_upgradable, sync.lock_upgradable, try_lock_upgradable_eq]

lemma try_upgrade_eq (s : Nat) : unsync.try_upgrade s = sync.try_upgrade s := by
  by_cases h : s = UPGRADABLE <;> simp [unsync.try_upgrade, sync.try_upgrade, h]

lemma upgrade_eq (s : Nat) : unsync.upgrade s = sync.upgrade s := by
  rw [unsync.upgrade, sync.upgrade, try_upgrade_eq]

lemma downgrade_upgradable_eq (s : Nat) :
    unsync.downgrade_upgradable s = sync.downgrade_upgradable s := rfl

lemma downgrade_to_upgradable_eq (s : Nat) :
    unsync.downgrade_to_upgradable s = sync.downgrade_to_upgradable s := rfl

/-! ### The reachability invariant -/

lemma RwInvariant_iff (s : Nat) :
    RwInvariant s ↔
      s < 2 ^ 64 ∧ (s % 2 = 1 → s / 4 = 0) ∧ ¬(s % 2 = 1 ∧ s / 2 % 2 = 1) ∧ s / 2 % 2 ≤ 1 :=
  Iff.rfl

lemma sync_reachable_invariant {s : Nat} (h : sync.Reachable s) : RwInvariant s := by
  induction h with
  | init =>
    rw [RwInvariant_iff]
    omega
  | step_try_lock_shared hr heq ih =>
    rename_i s t b
    rw [RwInvariant_iff] at ih ⊢
    by_cases hle : s ≤ usizeMax / 2
    · have h2 : s ≤ 2 ^ 63 - 1 := by rw [half_max] at hle; exact hle
      by_cases he : s % 2 = 0
      · rw [sync_try_lock_shared_ok hle he] at heq
        simp only [Except.ok.injEq, Prod.mk.injEq] at heq
        obtain ⟨-, ht⟩ := heq
        subst ht
        omega
      · have he1 : s % 2 = 1 := by omega
        rw [sync_try_lock_shared_fail hle he1] at heq
        simp only [Except.ok.injEq, Prod.mk.injEq] at heq
        obtain ⟨-, ht⟩ := heq
        subst ht
        exact ih
    · push_neg at hle
      rw [sync_try_lock_shared_panic hle (show s < usizeSize from ih.1)] at heq
      simp at heq
  | step_unlock_shared hr hpre ih =>
    rename_i s
    have h4 : 4 ≤ s := (sync_is_locked_shared_iff ih.1).mp hpre
    rw [sync_unlock_shared_eq h4 ih.1]
    rw [RwInvariant_iff] at ih ⊢
    omega
  | step_try_lock_exclusive hr ih =>
    rename_i s
    by_cases h : s = 0
    · subst h
      have hv : (sync.try_lock_exclusive 0).2 = 1 := rfl
      rw [hv, RwInvariant_iff]
      omega
    · have hv : (sync.try_lock_exclusive s).2 = s := by
        simp [sync.try_lock_exclusive, h]
      rw [hv]
      exact ih
  | step_unlock_exclusive hr hpre ih =>
    rename_i s
    rw [sync_unlock_exclusive_eq ih.1]
    rw [RwInvariant_iff] at ih ⊢
    omega
  | step_try_lock_upgradable hr ih =>
    rename_i s
    by_cases h0 : s % 4 = 0
    · rw [sync_try_lock_upgradable_ok h0]
      rw [RwInvariant_iff] at ih ⊢
      omega
    · by_cases hu : s / 2 % 2 = 1
      · rw [sync_try_lock_upgradable_fail_upg hu]
        exact ih
      · have he : s % 2 = 1 := by omega
        rw [sync_try_lock_upgradable_fail_excl ih.1 he (by omega)]
        exact ih
  | step_try_upgrade hr hpre ih =>
    rename_i s
    by_cases h : s = UPGRADABLE
    · subst h
      have hv : (sync.try_upgrade UPGRADABLE).2 = 1 := by
        simp [sync.try_upgrade]
        decide
      rw [hv, RwInvariant_iff]
      omega
    · have hv : (sync.try_upgrade s).2 = s := by
        simp [sync.try_upgrade, h]
      rw [hv]
      exact ih
  | step_unlock_upgradable hr hpre ih =>
    rename_i s
    rw [sync_unlock_upgradable_eq ih.1]
    rw [RwInvariant_iff] at ih ⊢
    omega
  | step_downgrade hr hpre heq ih =>
    rename_i s t
    by_cases hle : s ≤ usizeMax / 2
    · rw [sync_downgrade_eq hle] at heq
      simp only [Except.ok.injEq] at heq
      subst heq
      have h2 : s ≤ 2 ^ 63 - 1 := by rw [half_max] at hle; exact hle
      rw [RwInvariant_iff] at ih ⊢
      omega
    · push_neg at hle
      rw [sync_downgrade_panic hle ih.1] at heq
      simp at heq
  | step_downgrade_upgradable hr hpre heq ih =>
    rename_i s t
    by_cases hle : s ≤ usizeMax / 2
    · rw [sync_downgrade_upgradable_eq hle] at heq
      simp only [Except.ok.injEq] at heq
      subst heq
      have h2 : s ≤ 2 ^ 63 - 1 := by rw [half_max] at hle; exact hle
      have hu : s / 2 % 2 = 1 := (sync_is_locked_upgradable_iff s).mp hpre
      rw [RwInvariant_iff] at ih ⊢
      omega
    · push_neg at hle
      rw [sync_downgrade_upgradable_panic hle ih.1] at heq
      simp at heq
  | step_downgrade_to_upgradable hr hpre ih =>
    rename_i s
    have he : s % 2 = 1 := (sync_is_locked_exclusive_iff s).mp hpre
    have hs1 : s = 1 := by
      rw [RwInvariant_iff] at ih
      omega
    subst hs1
    have hv : sync.downgrade_to_upgradable 1 = 2 := by decide
    rw [hv, RwInvariant_iff]
    omega

lemma unsync_reachable_to_sync {s : Nat} (h : unsync.Reachable s) : sync.Reachable s := by
  induction h with
  | init => exact .init
  | step_try_lock_shared hr heq ih =>
    exact .step_try_lock_shared ih (by rw [← try_lock_shared_eq]; exact heq)
  | step_unlock_shared hr hpre ih =>
    rw [unlock_shared_eq]
    exact .step_unlock_shared ih hpre
  | step_try_lock_exclusive hr ih =>
    rw [try_lock_exclusive_eq]
    exact .step_try_lock_exclusive ih
  | step_unlock_exclusive hr hpre ih =>
    rw [unlock_exclusive_eq]
    exact .step_unlock_exclusive ih hpre
  | step_try_lock_upgradable hr ih =>
    rw [try_lock_upgradable_eq]
    exact .step_try_lock_upgradable ih
  | step_unlock_upgradable hr hpre ih =>
    rw [unlock_upgradable_eq]
    exact .step_unlock_upgradable ih hpre
  | step_try_upgrade hr hpre ih =>
    rw [try_upgrade_eq]
    exact .step_try_upgrade ih hpre
  | step_downgrade hr hpre heq ih =>
    exact .step_downgrade ih hpre (by rw [← downgrade_eq]; exact heq)
  | step_downgrade_upgradable hr hpre heq ih =>
    exact .step_downgrade_upgradable ih hpre (by rw [← downgrade_upgradable_eq]; exact heq)
  | step_downgrade_to_upgradable hr hpre ih =>
    rw [downgrade_to_upgradable_eq]
    exact .step_downgrade_to_upgradable ih hpre

/-! ### Claim theorems -/

/-- C2: for both readers-writer lock variants, `try_lock_exclusive` returns
true if and only if the state word is exactly 0, in which case the new state
word is exactly `EXCLUSIVE`; from any nonzero state word it returns false and
leaves the state word unchanged. -/
theorem try_lock_exclusive_iff_unlocked (s : Nat) :
    ((sync.try_lock_exclusive s).1 = true ↔ s = 0) ∧
    (s = 0 → sync.try_lock_exclusive s = (true, EXCLUSIVE)) ∧
    (s ≠ 0 → sync.try_lock_exclusive s = (false, s)) ∧
    ((unsync.try_lock_exclusive s).1 = true ↔ s = 0) ∧
    (s = 0 → unsync.try_lock_exclusive s = (true, EXCLUSIVE)) ∧
    (s ≠ 0 → unsync.try_lock_exclusive s = (false, s)) := by
  rw [try_lock_exclusive_eq]
  by_cases h : s = 0 <;> simp [sync.try_lock_exclusive, h]

/-- C2 witness: from the unlocked word the lock is taken, from the word 5 the
attempt fails and leaves 5 unchanged. -/
theorem try_lock_exclusive_iff_unlocked_witness :
    sync.try_lock_exclusive 0 = (true, EXCLUSIVE) ∧
    sync.try_lock_exclusive 5 = (false, 5) ∧
    unsync.try_lock_exclusive 5 = (false, 5) := by
  have h0 := try_lock_exclusive_iff_unlocked 0
  have h5 := try_lock_exclusive_iff_unlocked 5
  exact ⟨h0.2.1 rfl, h5.2.2.1 (by decide), h5.2.2.2.2.2 (by decide)⟩

/-- C4: for both readers-writer lock variants (stated with `hcap`, the
overflow cap, so that the call completes), `try_lock_shared` returns true if
and only if the `EXCLUSIVE` bit was clear in the pre-increment value, in which
case the net effect is exactly one added shared unit; when `EXCLUSIVE` was set
it decrements the optimistically added unit back and returns false with the
state word unchanged. -/
theorem try_lock_shared_optimistic (s : Nat) (hcap : s ≤ usizeMax / 2) :
    (s &&& EXCLUSIVE = 0 →
      sync.try_lock_shared s = .ok (true, s + SHARED) ∧
      unsync.try_lock_shared s = .ok (true, s + SHARED)) ∧
    (s &&& EXCLUSIVE = EXCLUSIVE →
      sync.try_lock_shared s = .ok (false, s) ∧
      unsync.try_lock_shared s = .ok (false, s)) := by
  rw [try_lock_shared_eq, EXCLUSIVE_val, Nat.and_one_is_mod, SHARED_val]
  constructor
  · intro he
    have h := sync_try_lock_shared_ok hcap (by omega)
    exact ⟨h, h⟩
  · intro he
    have h := sync_try_lock_shared_fail hcap (by omega)
    exact ⟨h, h⟩

/-- C4 witness: from the word 6 (one shared holder and the upgradable holder)
a shared lock is acquired, adding exactly one unit; from the word 1
(exclusively locked) the attempt fails and restores the word 1. -/
theorem try_lock_shared_optimistic_witness :
    sync.try_lock_shared 6 = .ok (true, 6 + SHARED) ∧
    unsync.try_lock_shared 6 = .ok (true, 6 + SHARED) ∧
    sync.try_lock_shared 1 = .ok (false, 1) := by
  have h6 := try_lock_shared_optimistic 6 (by decide)
  have h1 := try_lock_shared_optimistic 1 (by decide)
  exact ⟨(h6.1 (by decide)).1, (h6.1 (by decide)).2, (h1.2 (by decide)).1⟩

/-- C5: for both readers-writer lock variants, `try_lock_upgradable` returns
true if and only if the pre-set value had neither `UPGRADABLE` nor `EXCLUSIVE`
set, in which case the net effect is exactly setting the `UPGRADABLE` bit; on
failure the state word is left unchanged, and in particular a failing call
made while another upgradable holder exists leaves that holder's `UPGRADABLE`
bit set. -/
theorem try_lock_upgradable_optimistic (s : Nat) (hs : s < usizeSize) :
    ((sync.try_lock_upgradable s).1 = true ↔ s &&& (UPGRADABLE ||| EXCLUSIVE) = 0) ∧
    (s &&& (UPGRADABLE ||| EXCLUSIVE) = 0 →
      sync.try_lock_upgradable s = (true, s + UPGRADABLE) ∧
      unsync.try_lock_upgradable s = (true, s + UPGRADABLE)) ∧
    (s &&& (UPGRADABLE ||| EXCLUSIVE) ≠ 0 →
      sync.try_lock_upgradable s = (false, s) ∧
      unsync.try_lock_upgradable s = (false, s)) ∧
    (s &&& UPGRADABLE = UPGRADABLE →
      (sync.try_lock_upgradable s).2 &&& UPGRADABLE = UPGRADABLE) := by
  rw [try_lock_upgradable_eq]
  have h3 : UPGRADABLE ||| EXCLUSIVE = 3 := by decide
  rw [h3, and_three, UPGRADABLE_val, and_two, and_two]
  by_cases h0 : s % 4 = 0
  · rw [sync_try_lock_upgradable_ok h0]
    refine ⟨by simp [h0], fun _ => ⟨rfl, rfl⟩, fun hc => absurd h0 hc, fun hu => ?_⟩
    exfalso
    omega
  · by_cases hu : s / 2 % 2 = 1
    · rw [sync_try_lock_upgradable_fail_upg hu]
      refine ⟨by simp [h0], fun hc => absurd hc h0, fun _ => ⟨rfl, rfl⟩, fun _ => by
        simpa using hu⟩
    · have he : s % 2 = 1 := by omega
      rw [sync_try_lock_upgradable_fail_excl hs he (by omega)]
      refine ⟨by simp [h0], fun hc => absurd hc h0, fun _ => ⟨rfl, rfl⟩, fun hc => ?_⟩
      exfalso
      omega

/-- C5 witness: from the word 4 (one shared holder) the upgradable lock is
acquired by setting the bit; from the word 2 (an upgradable holder exists) the
attempt fails, leaves the word unchanged, and keeps the bit set. -/
theorem try_lock_upgradable_optimistic_witness :
    sync.try_lock_upgradable 4 = (true, 4 + UPGRADABLE) ∧
    sync.try_lock_upgradable 2 = (false, 2) ∧
    (sync.try_lock_upgradable 2).2 &&& UPGRADABLE = UPGRADABLE := by
  have h4 := try_lock_upgradable_optimistic 4 (by decide)
  have h2 := try_lock_upgradable_optimistic 2 (by decide)
  exact ⟨(h4.2.1 (by decide)).1, (h2.2.2.1 (by decide)).1, h2.2.2.2 (by decide)⟩

/-- C6: for both readers-writer lock variants, `try_upgrade` returns true if
and only if the state word is exactly `UPGRADABLE`, in which case the new
state word is exactly `EXCLUSIVE`; if any shared holder exists (shared count
nonzero) it returns false and leaves the state unchanged, and the panicking
`upgrade` panics in that case. -/
theorem try_upgrade_iff_sole_upgradable (s : Nat) :
    ((sync.try_upgrade s).1 = true ↔ s = UPGRADABLE) ∧
    ((unsync.try_upgrade s).1 = true ↔ s = UPGRADABLE) ∧
    (s = UPGRADABLE →
      sync.try_upgrade s = (true, EXCLUSIVE) ∧
      unsync.try_upgrade s = (true, EXCLUSIVE)) ∧
    (s / 4 ≠ 0 →
      sync.try_upgrade s = (false, s) ∧ unsync.try_upgrade s = (false, s) ∧
      sync.upgrade s = .error s ∧ unsync.upgrade s = .error s) := by
  rw [try_upgrade_eq, upgrade_eq]
  by_cases h : s = UPGRADABLE
  · subst h
    refine ⟨by simp [sync.try_upgrade], by simp [sync.try_upgrade],
      fun _ => ⟨rfl, rfl⟩, fun hc => absurd (by decide) hc⟩
  · simp [sync.try_upgrade, sync.upgrade, h]

/-- C6 witness: from the word exactly `UPGRADABLE` the upgrade succeeds into
`EXCLUSIVE`; from the word 6 (an upgradable holder plus one shared holder) it
fails, and the panicking `upgrade` panics with the word unchanged. -/
theorem try_upgrade_iff_sole_upgradable_witness :
    sync.try_upgrade UPGRADABLE = (true, EXCLUSIVE) ∧
    sync.try_upgrade 6 = (false, 6) ∧
    sync.upgrade 6 = .error 6 ∧ unsync.upgrade 6 = .error 6 := by
  have hu := try_upgrade_iff_sole_upgradable UPGRADABLE
  have h6 := try_upgrade_iff_sole_upgradable 6
  exact ⟨(hu.2.2.1 rfl).1, (h6.2.2.2 (by decide)).1, (h6.2.2.2 (by decide)).2.2.1,
    (h6.2.2.2 (by decide)).2.2.2⟩

/-- C3: for every try operation on every lock variant (mutex `try_lock`;
rwlock `try_lock_shared`, `try_lock_shared_recursive`, `try_lock_exclusive`,
`try_lock_upgradable`, `try_upgrade`), if the call returns false then the
state word after the call equals the state word before the call. -/
theorem try_failure_rolls_back (b : Bool) (s : Nat) (hs : s < usizeSize) :
    ((sync.mutex_try_lock b).1 = false → (sync.mutex_try_lock b).2 = b) ∧
    ((unsync.mutex_try_lock b).1 = false → (unsync.mutex_try_lock b).2 = b) ∧
    (∀ t, sync.try_lock_shared s = .ok (false, t) → t = s) ∧
    (∀ t, unsync.try_lock_shared s = .ok (false, t) → t = s) ∧
    (∀ t, sync.try_lock_shared_recursive s = .ok (false, t) → t = s) ∧
    (∀ t, unsync.try_lock_shared_recursive s = .ok (false, t) → t = s) ∧
    ((sync.try_lock_exclusive s).1 = false → (sync.try_lock_exclusive s).2 = s) ∧
    ((unsync.try_lock_exclusive s).1 = false → (unsync.try_lock_exclusive s).2 = s) ∧
    ((sync.try_lock_upgradable s).1 = false → (sync.try_lock_upgradable s).2 = s) ∧
    ((unsync.try_lock_upgradable s).1 = false → (unsync.try_lock_upgradable s).2 = s) ∧
    ((sync.try_upgrade s).1 = false → (sync.try_upgrade s).2 = s) ∧
    ((unsync.try_upgrade s).1 = false → (unsync.try_upgrade s).2 = s) := by
  rw [try_lock_shared_eq, try_lock_shared_recursive_eq, try_lock_exclusive_eq,
    try_lock_upgradable_eq, try_upgrade_eq, mutex_try_lock_eq]
  have hmutex : (sync.mutex_try_lock b).1 = false → (sync.mutex_try_lock b).2 = b := by
    cases b <;> simp [sync.mutex_try_lock]
  have hshared : ∀ t, sync.try_lock_shared s = .ok (false, t) → t = s := by
    intro t heq
    by_cases hle : s ≤ usizeMax / 2
    · by_cases he : s % 2 = 0
      · rw [sync_try_lock_shared_ok hle he] at heq
        simp at heq
      · rw [sync_try_lock_shared_fail hle (by omega)] at heq
        simp only [Except.ok.injEq, Prod.mk.injEq] at heq
        exact heq.2.symm
    · rw [sync_try_lock_shared_panic (by omega) hs] at heq
      simp at heq
  have hexcl : (sync.try_lock_exclusive s).1 = false → (sync.try_lock_exclusive s).2 = s := by
    by_cases h : s = 0 <;> simp [sync.try_lock_exclusive, h]
  have hupg : (sync.try_lock_upgradable s).1 = false →
      (sync.try_lock_upgradable s).2 = s := by
    intro hfail
    by_cases h0 : s % 4 = 0
    · rw [sync_try_lock_upgradable_ok h0] at hfail ⊢
      simp at hfail
    · by_cases hu : s / 2 % 2 = 1
      · rw [sync_try_lock_upgradable_fail_upg hu]
      · rw [sync_try_lock_upgradable_fail_excl hs (by omega) (by omega)]
  have hupgr : (sync.try_upgrade s).1 = false → (sync.try_upgrade s).2 = s := by
    by_cases h : s = UPGRADABLE <;> simp [sync.try_upgrade, h]
  exact ⟨hmutex, hmutex, hshared, hshared, hshared, hshared, hexcl, hexcl,
    hupg, hupg, hupgr, hupgr⟩

/-- C3 witness: three failing try operations, each leaving its concrete
pre-state word unchanged. -/
theorem try_failure_rolls_back_witness :
    (sync.try_lock_exclusive 4).2 = 4 ∧
    (sync.try_lock_upgradable 2).2 = 2 ∧
    (sync.mutex_try_lock true).2 = true := by
  have h4 := try_failure_rolls_back true 4 (by decide)
  have h2 := try_failure_rolls_back true 2 (by decide)
  exact ⟨h4.2.2.2.2.2.2.1 (by decide), h2.2.2.2.2.2.2.2.2.1 (by decide),
    h4.1 (by decide)⟩

/-- C7: for both readers-writer lock variants, every operation that acquires a
shared unit (`acquire_shared` itself, `try_lock_shared`, `lock_shared`, the
recursive shared variants, `downgrade`, `downgrade_upgradable`) checks the
pre-increment state word: if it exceeds `usize::MAX / 2` the operation
subtracts the unit it just added (the panic state equals the pre-state) and
panics; otherwise `acquire_shared` completes without a panic and the count
does not wrap (the post-state is exactly one unit larger). -/
theorem shared_overflow_guard (s : Nat) (hs : s < usizeSize) :
    (usizeMax / 2 < s →
      sync.acquire_shared s = .error s ∧ unsync.acquire_shared s = .error s ∧
      sync.try_lock_shared s = .error s ∧ unsync.try_lock_shared s = .error s ∧
      sync.lock_shared s = .error s ∧ unsync.lock_shared s = .error s ∧
      sync.try_lock_shared_recursive s = .error s ∧
      unsync.try_lock_shared_recursive s = .error s ∧
      sync.lock_shared_recursive s = .error s ∧
      unsync.lock_shared_recursive s = .error s ∧
      sync.downgrade s = .error s ∧ unsync.downgrade s = .error s ∧
      sync.downgrade_upgradable s = .error s ∧
      unsync.downgrade_upgradable s = .error s) ∧
    (s ≤ usizeMax / 2 →
      sync.acquire_shared s = .ok (s, s + SHARED) ∧
      unsync.acquire_shared s = .ok (s, s + SHARED)) := by
  rw [acquire_shared_eq, try_lock_shared_eq, lock_shared_eq,
    try_lock_shared_recursive_eq, lock_shared_recursive_eq, downgrade_eq,
    downgrade_upgradable_eq]
  constructor
  · intro hlt
    have ha := sync_acquire_shared_panic hlt hs
    have ht := sync_try_lock_shared_panic hlt hs
    have hl : sync.lock_shared s = .error s := by
      rw [sync.lock_shared, ht]
    have hd := sync_downgrade_panic hlt hs
    have hdu := sync_downgrade_upgradable_panic hlt hs
    exact ⟨ha, ha, ht, ht, hl, hl, ht, ht, hl, hl, hd, hd, hdu, hdu⟩
  · intro hle
    have ha := sync_acquire_shared_ok hle
    rw [SHARED_val]
    exact ⟨ha, ha⟩

/-- C7 witness: from the word `2 ^ 63` (above the cap) the acquisition rolls
back and panics with the pre-state; from the word 0 it completes, adding one
unit. -/
theorem shared_overflow_guard_witness :
    sync.acquire_shared (2 ^ 63) = .error (2 ^ 63) ∧
    sync.try_lock_shared (2 ^ 63) = .error (2 ^ 63) ∧
    sync.downgrade (2 ^ 63) = .error (2 ^ 63) ∧
    sync.acquire_shared 0 = .ok (0, 0 + SHARED) := by
  have hhi := shared_overflow_guard (2 ^ 63) (by decide)
  have hlo := shared_overflow_guard 0 (by decide)
  exact ⟨(hhi.1 (by decide)).1, (hhi.1 (by decide)).2.2.1,
    (hhi.1 (by decide)).2.2.2.2.2.2.2.2.2.2.1, (hlo.2 (by decide)).1⟩

/-- C8: for both readers-writer lock variants, `downgrade` from the exclusive
state (word `EXCLUSIVE`) first adds one shared unit (reaching the word
`EXCLUSIVE + SHARED`) and only then clears the `EXCLUSIVE` bit, ending at the
word `SHARED`; each of the three words seen during the transition is nonzero,
so no observer ever sees a fully-unlocked word, and a `try_lock_shared`
performed after the downgrade succeeds. -/
theorem downgrade_no_unlocked_window :
    sync.downgrade EXCLUSIVE = .ok SHARED ∧
    unsync.downgrade EXCLUSIVE = .ok SHARED ∧
    sync.acquire_shared EXCLUSIVE = .ok (EXCLUSIVE, EXCLUSIVE + SHARED) ∧
    unsync.acquire_shared EXCLUSIVE = .ok (EXCLUSIVE, EXCLUSIVE + SHARED) ∧
    sync.unlock_exclusive (EXCLUSIVE + SHARED) = SHARED ∧
    unsync.unlock_exclusive (EXCLUSIVE + SHARED) = SHARED ∧
    EXCLUSIVE ≠ 0 ∧ EXCLUSIVE + SHARED ≠ 0 ∧ SHARED ≠ 0 ∧
    sync.try_lock_shared SHARED = .ok (true, SHARED + SHARED) ∧
    unsync.try_lock_shared SHARED = .ok (true, SHARED + SHARED) :=
  ⟨rfl, rfl, rfl, rfl, rfl, rfl, by decide, by decide, by decide, rfl, rfl⟩

/-- C9: the single-owner (unsync, Cell-based) and shared (sync, atomic)
variants implement the identical state machine: modelled sequentially, every
operation of the mutex and rwlock capability sets returns the same result and
produces the same post-state on every state-word value — including the unsync
mutex `try_lock` via unconditional `replace(true)` versus the sync
compare-exchange, and the unsync `try_lock_exclusive` / `try_upgrade` via
read-then-write versus the sync compare-exchange. -/
theorem unsync_refines_sync :
    (∀ b, unsync.mutex_try_lock b = sync.mutex_try_lock b) ∧
    (∀ b, unsync.mutex_lock b = sync.mutex_lock b) ∧
    (∀ b, unsync.mutex_unlock b = sync.mutex_unlock b) ∧
    (∀ b, unsync.mutex_unlock_fair b = sync.mutex_unlock_fair b) ∧
    (∀ b, unsync.mutex_bump b = sync.mutex_bump b) ∧
    (∀ b, unsync.mutex_is_locked b = sync.mutex_is_locked b) ∧
    (∀ s, unsync.acquire_shared s = sync.acquire_shared s) ∧
    (∀ s, unsync.try_lock_shared s = sync.try_lock_shared s) ∧
    (∀ s, unsync.lock_shared s = sync.lock_shared s) ∧
    (∀ s, unsync.unlock_shared s = sync.unlock_shared s) ∧
    (∀ s, unsync.try_lock_exclusive s = sync.try_lock_exclusive s) ∧
    (∀ s, unsync.lock_exclusive s = sync.lock_exclusive s) ∧
    (∀ s, unsync.unlock_exclusive s = sync.unlock_exclusive s) ∧
    (∀ s, unsync.try_lock_upgradable s = sync.try_lock_upgradable s) ∧
    (∀ s, unsync.lock_upgradable s = sync.lock_upgradable s) ∧
    (∀ s, unsync.unlock_upgradable s = sync.unlock_upgradable s) ∧
    (∀ s, unsync.try_upgrade s = sync.try_upgrade s) ∧
    (∀ s, unsync.upgrade s = sync.upgrade s) ∧
    (∀ s, unsync.downgrade s = sync.downgrade s) ∧
    (∀ s, unsync.downgrade_upgradable s = sync.downgrade_upgradable s) ∧
    (∀ s, unsync.downgrade_to_upgradable s = sync.downgrade_to_upgradable s) ∧
    (∀ s, unsync.lock_shared_recursive s = sync.lock_shared_recursive s) ∧
    (∀ s, unsync.try_lock_shared_recursive s = sync.try_lock_shared_recursive s) ∧
    (∀ s, unsync.is_locked s = sync.is_locked s) ∧
    (∀ s, unsync.is_locked_exclusive s = sync.is_locked_exclusive s) ∧
    (∀ s, unsync.is_locked_shared s = sync.is_locked_shared s) ∧
    (∀ s, unsync.is_locked_upgradable s = sync.is_locked_upgradable s) :=
  ⟨mutex_try_lock_eq, mutex_lock_eq, mutex_unlock_eq, mutex_unlock_fair_eq,
    mutex_bump_eq, mutex_is_locked_eq, acquire_shared_eq, try_lock_shared_eq,
    lock_shared_eq, unlock_shared_eq, try_lock_exclusive_eq, lock_exclusive_eq,
    unlock_exclusive_eq, try_lock_upgradable_eq, lock_upgradable_eq,
    unlock_upgradable_eq, try_upgrade_eq, upgrade_eq, downgrade_eq,
    downgrade_upgradable_eq, downgrade_to_upgradable_eq, lock_shared_recursive_eq,
    try_lock_shared_recursive_eq, is_locked_eq, is_locked_exclusive_eq,
    is_locked_shared_eq, is_locked_upgradable_eq⟩

/-- C10: for both readers-writer lock variants, each release operation
modifies only its own bit region. For every state word with the `EXCLUSIVE`
bit set, `unlock_exclusive` only clears bit 0 (the rest of the word,
`s / 2`, is unchanged); for every word with the `UPGRADABLE` bit set,
`unlock_upgradable` only clears bit 1 (bit 0 and the shared count are
unchanged); for every word with a nonzero shared count, `unlock_shared`
subtracts exactly one shared unit (bits 0 and 1, i.e. `s % 4`, are
unchanged). -/
theorem release_frame_effects (s : Nat) (hs : s < usizeSize) :
    (s % 2 = 1 →
      sync.unlock_exclusive s = s - EXCLUSIVE ∧
      unsync.unlock_exclusive s = s - EXCLUSIVE ∧
      sync.unlock_exclusive s % 2 = 0 ∧
      sync.unlock_exclusive s / 2 = s / 2) ∧
    (s / 2 % 2 = 1 →
      sync.unlock_upgradable s = s - UPGRADABLE ∧
      unsync.unlock_upgradable s = s - UPGRADABLE ∧
      sync.unlock_upgradable s / 2 % 2 = 0 ∧
      sync.unlock_upgradable s % 2 = s % 2 ∧
      sync.unlock_upgradable s / 4 = s / 4) ∧
    (SHARED ≤ s →
      sync.unlock_shared s = s - SHARED ∧
      unsync.unlock_shared s = s - SHARED ∧
      sync.unlock_shared s % 4 = s % 4 ∧
      sync.unlock_shared s / 4 = s / 4 - 1) := by
  rw [unlock_exclusive_eq, unlock_upgradable_eq, unlock_shared_eq,
    EXCLUSIVE_val, UPGRADABLE_val, SHARED_val]
  have h1 := sync_unlock_exclusive_eq hs
  have h2 := sync_unlock_upgradable_eq hs
  refine ⟨fun he => ?_, fun hu => ?_, fun hc => ?_⟩
  · rw [h1]
    refine ⟨by omega, by omega, by omega, by omega⟩
  · rw [h2]
    refine ⟨by omega, by omega, by omega, by omega, by omega⟩
  · rw [sync_unlock_shared_eq hc hs]
    refine ⟨by omega, by omega, by omega, by omega⟩

/-- C10 witness: at the word 7 (all three regions populated) each release
operation clears exactly its own region. -/
theorem release_frame_effects_witness :
    sync.unlock_exclusive 7 = 7 - EXCLUSIVE ∧
    sync.unlock_upgradable 7 = 7 - UPGRADABLE ∧
    sync.unlock_shared 7 = 7 - SHARED := by
  have h := release_frame_effects 7 (by decide)
  exact ⟨(h.1 (by decide)).1, (h.2.1 (by decide)).1, (h.2.2 (by decide)).1⟩

/-- C1: for both readers-writer lock variants, every state word reachable from
the zero-initialized state by completed operations (with each unsafe
release/downgrade operation invoked only under its holder precondition)
satisfies: if the `EXCLUSIVE` bit (bit 0, `s % 2`) is set then the
shared-reader count (`s / 4`, the bits at positions two and above) is zero;
the `EXCLUSIVE` and `UPGRADABLE` bits are never both set; and the
`UPGRADABLE` bit (`s / 2 % 2`) is at most one, encoding at most one
upgradable holder. -/
theorem rwlock_reachable_invariant (s : Nat)
    (h : sync.Reachable s ∨ unsync.Reachable s) :
    (s % 2 = 1 → s / 4 = 0) ∧ ¬(s % 2 = 1 ∧ s / 2 % 2 = 1) ∧ s / 2 % 2 ≤ 1 := by
  have hi : RwInvariant s := by
    rcases h with h | h
    · exact sync_reachable_invariant h
    · exact sync_reachable_invariant (unsync_reachable_to_sync h)
  rw [RwInvariant_iff] at hi
  exact ⟨hi.2.1, hi.2.2.1, hi.2.2.2⟩

/-- C1 witness: the invariant at the concrete state word 4 (one shared
holder), reached by a successful `try_lock_shared` from the zero-initialized
state of the sync variant. -/
theorem rwlock_reachable_invariant_witness :
    ((4 : Nat) % 2 = 1 → (4 : Nat) / 4 = 0) ∧
    ¬((4 : Nat) % 2 = 1 ∧ (4 : Nat) / 2 % 2 = 1) ∧ (4 : Nat) / 2 % 2 ≤ 1 :=
  rwlock_reachable_invariant 4
    (Or.inl (sync.Reachable.step_try_lock_shared sync.Reachable.init rfl))
